import Mathlib

/-!
# Verification of `multilabel_oversampling.py`

A shallow embedding of the core of `MultilabelOversampler`
(`src/multilabel_oversampling/multilabel_oversampling.py`), the greedy
oversampling search `fit`, together with theorems settling the frozen claims.

Modelling conventions:

* A pandas `DataFrame` becomes a list of column names plus rows, each row a
  pair of its original index label and the list of its field values aligned
  with the column names.  `pd.concat` keeping index labels is list append.
* `df[target_list].sum().std()` computes the sample standard deviation
  (ddof = 1) of the per-target column sums; for fewer than two targets pandas
  returns NaN.  We embed the *square* of that value, the sample variance:
  since x ↦ √x is strictly monotone on the nonnegative reals, the comparison
  `new_std < current_std` in the source has the same truth value on variances
  as on standard deviations, and NaN arises in exactly the same cases (it is
  modelled as `none`).  All claim statements are order-theoretic, so nothing
  is lost by this monotone reparametrisation, and everything stays in ℚ,
  hence executable and kernel-decidable.
* Python-level dynamic typing of the two bounds matters: `__init__` replaces a
  falsy `number_of_adds` / `number_of_tries` by the *float* literal `1e6`, and
  `range` raises `TypeError` on a float.  Bounds are therefore embedded as a
  sum type `PyNum` of ints and floats.
* `df.sample(n=1)` draws one row of the *original* dataframe; the random
  source is an oracle `rng : Nat → Nat` consulted at the t-th draw overall,
  reduced mod the row count.
* `print`, `tqdm` and all plotting are I/O collaborators with no effect on the
  accept/reject decisions; they are not modelled, except for the shape of the
  value `fit` returns (`FitRet`), which depends on the plot flag.
-/

namespace MLO

/-- A dataframe row: its original index label and its field values, aligned
with the dataframe's column-name list. -/
abbrev Row : Type := Nat × List ℚ

/-- A dataframe: ordered column names plus ordered rows. -/
structure DF where
  cols : List String
  rows : List Row
  deriving DecidableEq, Repr

/-- Dynamic numeric value of the bound attributes: `__init__` stores either the
caller's (truthy) int or the float literal `1e6`. -/
inductive PyNum where
  | int (n : Nat)
  | float (q : ℚ)
  deriving DecidableEq, Repr

/-- Exceptions the embedded `fit` can raise: `TypeError` from `range(1e6)`
(float bound), `KeyError` from `df_new[self.target_list]` when a target name
is absent from the columns. -/
inductive PyErr where
  | typeError
  | keyError
  deriving DecidableEq, Repr

/-- `if number_of_adds: self.number_of_adds = number_of_adds else: 1e6`
(`__init__`, lines 44–51): a falsy (zero) bound is replaced by the float
sentinel `1e6`. -/
def mkBound (n : Nat) : PyNum :=
  if n = 0 then PyNum.float 1000000 else PyNum.int n

/-- Value of row `r` at column `c`, by position of `c` in the column list
(pandas column selection by name). -/
def colVal (cols : List String) (r : Row) (c : String) : ℚ :=
  r.2.getD (cols.findIdx (fun d => d == c)) 0

/-- `df[ .. ][c].sum()`: the per-column sum over a row collection. -/
def colSum (cols : List String) (rows : List Row) (c : String) : ℚ :=
  (rows.map (fun r => colVal cols r c)).sum

/-- `df[target_list].sum()`: the vector of per-target column sums. -/
def sumVec (cols : List String) (rows : List Row) (targets : List String) :
    List ℚ :=
  targets.map (colSum cols rows)

/-- The square of pandas `Series.std()` (sample standard deviation,
ddof = 1): the sample variance.  `none` models the NaN pandas returns for a
series of length < 2.  Squaring is a strictly monotone reparametrisation on
the nonnegative values being compared, so every `<` test of the source keeps
its truth value. -/
def stdSq (xs : List ℚ) : Option ℚ :=
  if xs.length < 2 then none
  else
    let n : ℚ := xs.length
    let m : ℚ := xs.sum / n
    some ((xs.map (fun x => (x - m) * (x - m))).sum / (n - 1))

/-- The comparison `new_std < current_std` on possibly-NaN floats: NaN
compares neither less-than nor greater-than anything, so any comparison
involving `none` is `false`. -/
def ltScore : Option ℚ → Option ℚ → Bool
  | some x, some y => decide (x < y)
  | _, _ => false

/-- `df.sample(n=1)`: the row of the original dataframe selected by the
oracle's k-th output, reduced mod the row count. -/
def pick (rows : List Row) (k : Nat) : Row :=
  rows.getD (k % rows.length) (0, [])

/-- Result of one run of the inner try loop (lines 77–90). -/
structure TryRes where
  /-- whether some try accepted its candidate (the `break` at line 88) -/
  accepted : Bool
  /-- `df_new` after the loop: the interim frame if accepted, unchanged else -/
  dfNew : List Row
  /-- the accepted `new_std` (meaningful only when `accepted`) -/
  newScore : Option ℚ
  /-- the final value of the Python loop variable `try_` -/
  lastTry : Nat
  /-- the `not_working` list of `(random_row.index[0], new_std)` pairs -/
  notWorking : List (Nat × Option ℚ)
  /-- the draw counter after the loop -/
  ctr : Nat
  deriving DecidableEq, Repr

/-- The try loop `for try_ in range(self.number_of_tries)` (lines 78–90).
`tries` is the full bound, `fuel` the remaining tries (the current try index
is `tries - fuel`).  When the loop exhausts without acceptance, the Python
variable `try_` is left at `tries - 1`. -/
def tryLoop (dfRows : List Row) (cols : List String) (targets : List String)
    (rng : Nat → Nat) (current : Option ℚ) (tries : Nat) :
    Nat → List Row → Nat → List (Nat × Option ℚ) → TryRes
  | 0, dfNew, ctr, nw =>
    { accepted := false, dfNew := dfNew, newScore := none,
      lastTry := tries - 1, notWorking := nw, ctr := ctr }
  | fuel + 1, dfNew, ctr, nw =>
    let row := pick dfRows (rng ctr)
    let interim := dfNew ++ [row]
    let newStd := stdSq (sumVec cols interim targets)
    if ltScore newStd current then
      { accepted := true, dfNew := interim, newScore := newStd,
        lastTry := tries - (fuel + 1), notWorking := nw, ctr := ctr + 1 }
    else
      tryLoop dfRows cols targets rng current tries fuel dfNew (ctr + 1)
        (nw ++ [(row.1, newStd)])

/-- The mutable run state at the end of `fit`'s loop (lines 73–94). -/
structure RunResult where
  /-- the grown working set `df_new` -/
  dfNew : List Row
  /-- `res_std`, the accepted scores in iteration order -/
  resStd : List (Option ℚ)
  /-- `res_bad`, the recorded per-iteration rejected-trial lists -/
  resBad : List (List (Nat × Option ℚ))
  /-- the iteration index at which the `break` at line 93 fired (the
  "No improvement after N tries in iter i" diagnostic), `none` when all
  iterations completed -/
  stallIter : Option Nat
  /-- whether the iteration that triggered that break had in fact accepted
  its candidate (acceptance at the final try index) -/
  lastAccepted : Bool
  deriving DecidableEq, Repr

/-- The outer loop `for iter_ in range(self.number_of_adds)` (lines 73–94).
Each iteration: the `KeyError` from `df_new[self.target_list]` (line 74), the
`TypeError` from `range(float)` (line 78), the try loop, the acceptance
bookkeeping, and the check `(try_+1) == self.number_of_tries` (line 91) whose
`break` skips the `res_bad.append` (line 94). -/
def iterLoop (df : DF) (targets : List String) (rng : Nat → Nat)
    (tries : PyNum) :
    Nat → Nat → List Row → List (Option ℚ) → List (List (Nat × Option ℚ)) →
    Nat → Except PyErr RunResult
  | 0, _, dfNew, rs, rb, _ =>
    Except.ok { dfNew := dfNew, resStd := rs, resBad := rb,
                stallIter := none, lastAccepted := false }
  | remaining + 1, i, dfNew, rs, rb, ctr =>
    if targets.any (fun t => !(df.cols.contains t)) then
      Except.error PyErr.keyError
    else
      let current := stdSq (sumVec df.cols dfNew targets)
      match tries with
      | PyNum.float _ => Except.error PyErr.typeError
      | PyNum.int tr =>
        let res := tryLoop df.rows df.cols targets rng current tr tr dfNew
          ctr []
        let rs' := if res.accepted then rs ++ [res.newScore] else rs
        if res.lastTry + 1 = tr then
          Except.ok { dfNew := res.dfNew, resStd := rs', resBad := rb,
                      stallIter := some i, lastAccepted := res.accepted }
        else
          iterLoop df targets rng tries remaining (i + 1) res.dfNew rs'
            (rb ++ [res.notWorking]) res.ctr

/-- The shape of the value `fit` returns (lines 101–106): the pair
`df_new, plot_at` when `len(res_std) > 0 and self.plot`, otherwise the bare
dataframe.  The second component of the pair is a matplotlib handle (an I/O
collaborator, not modelled beyond its presence). -/
inductive FitRet where
  | single (dfNew : List Row)
  | withPlot (dfNew : List Row)
  deriving DecidableEq, Repr

/-- Everything observable about a completed `fit` call: the attributes
`self.df_new`, `self.res_std`, `self.res_bad` (lines 98–100), the stall
diagnostics, and the returned value's shape. -/
structure FitOutput where
  dfNew : List Row
  resStd : List (Option ℚ)
  resBad : List (List (Nat × Option ℚ))
  stallIter : Option Nat
  lastAccepted : Bool
  ret : FitRet
  deriving DecidableEq, Repr

/-- `MultilabelOversampler.fit` (lines 58–106).  `adds` and `tries` are the
attributes set by `__init__` (`mkBound`); `plot` is the `plot` flag; `rng`
the sampling oracle.  `range(self.number_of_adds)` raises `TypeError` when
the attribute holds the float sentinel. -/
def fit (adds tries : PyNum) (plot : Bool) (df : DF)
    (targets : List String) (rng : Nat → Nat) : Except PyErr FitOutput :=
  match adds with
  | PyNum.float _ => Except.error PyErr.typeError
  | PyNum.int a =>
    (iterLoop df targets rng tries a 0 df.rows [] [] 0).map (fun rr =>
      { dfNew := rr.dfNew, resStd := rr.resStd, resBad := rr.resBad,
        stallIter := rr.stallIter, lastAccepted := rr.lastAccepted,
        ret := if 0 < rr.resStd.length ∧ plot = true then
                 FitRet.withPlot rr.dfNew
               else FitRet.single rr.dfNew })

/-- The trace relation of a strictly decreasing score sequence: each entry is
strictly below its predecessor under the source's `<` comparison. -/
def StrictDescent (l : List (Option ℚ)) : Prop :=
  List.Chain' (fun a b => ltScore b a = true) l

/-- The unbalanced test dataframe used for concrete runs: two label columns
with positive counts `[3, 1]`. -/
def dfU : DF :=
  ⟨["y1", "y2"], [(0, [1, 0]), (1, [1, 0]), (2, [1, 0]), (3, [0, 1])]⟩

/-- A balanced test dataframe: positive counts `[1, 1]`, initial dispersion
zero, so no candidate can ever be accepted. -/
def dfB : DF :=
  ⟨["y1", "y2"], [(0, [1, 0]), (1, [0, 1])]⟩

/-- A dataframe with a single label column, for the undefined-metric case. -/
def df1 : DF :=
  ⟨["y1"], [(0, [1]), (1, [0])]⟩

/-- The output of `fit` on `dfU` with `number_of_adds = 5`,
`number_of_tries = 2`, `plot` on, and an oracle that always draws row index 3:
iterations 0 and 1 accept (scores drop `2 → 1/2 → 0`), iteration 2 stalls. -/
def outU : FitOutput :=
  ⟨dfU.rows ++ [(3, [0, 1]), (3, [0, 1])], [some (1/2), some 0], [[], []],
    some 2, false, FitRet.withPlot (dfU.rows ++ [(3, [0, 1]), (3, [0, 1])])⟩

/-- The output of `fit` on the balanced `dfB` (initial score 0): every trial
is rejected, the run stalls at iteration 0 and the bare dataframe is
returned even though `plot` is on. -/
def outB : FitOutput :=
  ⟨dfB.rows, [], [], some 0, false, FitRet.single dfB.rows⟩

/-! ## Helper lemmas -/

theorem ltScore_none_right (x : Option ℚ) : ltScore x none = false := by
  cases x <;> rfl

theorem ltScore_irrefl (x : Option ℚ) : ltScore x x = false := by
  cases x with
  | none => rfl
  | some q => simp [ltScore]

theorem stdSq_short {xs : List ℚ} (h : xs.length < 2) : stdSq xs = none := by
  simp [stdSq, h]

theorem pick_mem {rows : List Row} (h : rows ≠ []) (k : Nat) :
    pick rows k ∈ rows := by
  have hlen : 0 < rows.length := List.length_pos.mpr h
  have hk : k % rows.length < rows.length := Nat.mod_lt _ hlen
  rw [pick, List.getD_eq_getElem _ _ hk]
  exact List.getElem_mem hk

/-- Case analysis on one run of the try loop: either no try accepted (then
`df_new` is unchanged and `try_` ended at `tries - 1`), or some try accepted a
sampled row (then exactly that row was appended, the recorded score is the
score of the new working set, and it strictly improved on `current`). -/
theorem tryLoop_spec (dfRows : List Row) (cols targets : List String)
    (rng : Nat → Nat) (current : Option ℚ) (tries : Nat) :
    ∀ (fuel : Nat) (dfNew : List Row) (ctr : Nat)
      (nw : List (Nat × Option ℚ)) (res : TryRes),
      res = tryLoop dfRows cols targets rng current tries fuel dfNew ctr nw →
      (res.accepted = false ∧ res.dfNew = dfNew ∧ res.lastTry = tries - 1) ∨
      (res.accepted = true ∧ ∃ k,
        res.dfNew = dfNew ++ [pick dfRows k] ∧
        res.newScore = stdSq (sumVec cols res.dfNew targets) ∧
        ltScore res.newScore current = true) := by
  intro fuel
  induction fuel with
  | zero =>
    intro dfNew ctr nw res hres
    subst hres
    exact Or.inl ⟨rfl, rfl, rfl⟩
  | succ n ih =>
    intro dfNew ctr nw res hres
    rw [tryLoop] at hres
    cases h : ltScore
        (stdSq (sumVec cols (dfNew ++ [pick dfRows (rng ctr)]) targets))
        current with
    | false =>
      rw [h] at hres
      simp only [Bool.false_eq_true, if_false] at hres
      exact ih dfNew (ctr + 1)
        (nw ++ [((pick dfRows (rng ctr)).1,
          stdSq (sumVec cols (dfNew ++ [pick dfRows (rng ctr)]) targets))])
        res hres
    | true =>
      rw [h] at hres
      simp only [if_true] at hres
      subst hres
      exact Or.inr ⟨rfl, rng ctr, rfl, rfl, h⟩

/-- Each iteration of the outer loop appends at most one row and one accepted
score, and it appends a row exactly when it appends a score: the working set
grows in lockstep with `res_std`, by at most one per remaining iteration. -/
theorem iterLoop_len (df : DF) (targets : List String) (rng : Nat → Nat)
    (tries : PyNum) :
    ∀ (remaining i : Nat) (dfNew : List Row) (rs : List (Option ℚ))
      (rb : List (List (Nat × Option ℚ))) (ctr : Nat) (out : RunResult),
      iterLoop df targets rng tries remaining i dfNew rs rb ctr =
        Except.ok out →
      ∃ k, k ≤ remaining ∧ out.resStd.length = rs.length + k ∧
        out.dfNew.length = dfNew.length + k := by
  intro remaining
  induction remaining with
  | zero =>
    intro i dfNew rs rb ctr out h
    rw [iterLoop] at h
    cases h
    exact ⟨0, Nat.le_refl 0, rfl, rfl⟩
  | succ n ih =>
    intro i dfNew rs rb ctr out h
    rw [iterLoop] at h
    by_cases hmiss : targets.any (fun t => !(df.cols.contains t)) = true
    · rw [if_pos hmiss] at h
      simp at h
    · rw [if_neg hmiss] at h
      cases tries with
      | float q => simp at h
      | int tr =>
        simp only at h
        rcases tryLoop_spec df.rows df.cols targets rng
            (stdSq (sumVec df.cols dfNew targets)) tr tr dfNew ctr [] _ rfl
          with ⟨hacc, hdf, _⟩ | ⟨hacc, k, hdf, _, _⟩
        · by_cases hbr : (tryLoop df.rows df.cols targets rng
              (stdSq (sumVec df.cols dfNew targets)) tr tr dfNew ctr
              []).lastTry + 1 = tr
          · rw [if_pos hbr] at h
            cases h
            refine ⟨0, Nat.zero_le _, ?_, ?_⟩
            · simp [hacc]
            · simp [hacc, hdf]
          · rw [if_neg hbr] at h
            obtain ⟨m, hm, h1, h2⟩ := ih (i + 1) _ _ _ _ _ h
            refine ⟨m, Nat.le_succ_of_le hm, ?_, ?_⟩
            · rw [h1]; simp [hacc]
            · rw [h2, hdf]
        · by_cases hbr : (tryLoop df.rows df.cols targets rng
              (stdSq (sumVec df.cols dfNew targets)) tr tr dfNew ctr
              []).lastTry + 1 = tr
          · rw [if_pos hbr] at h
            cases h
            refine ⟨1, by omega, ?_, ?_⟩
            · simp [hacc]
            · simp [hacc, hdf]
          · rw [if_neg hbr] at h
            obtain ⟨m, hm, h1, h2⟩ := ih (i + 1) _ _ _ _ _ h
            refine ⟨m + 1, by omega, ?_, ?_⟩
            · rw [h1]; simp [hacc]; omega
            · rw [h2, hdf]; simp; omega

/-- If the run breaks out of the outer loop at iteration `j` and that
iteration did not accept its candidate (a genuine stall), then every earlier
iteration accepted exactly one row: on exit `res_std` has grown by `j - i`
entries and the working set by `j - i` rows.  Needs `1 ≤ tries`, which
`__init__` guarantees (a falsy value becomes the float sentinel instead). -/
theorem iterLoop_stall (df : DF) (targets : List String) (rng : Nat → Nat)
    (tr : Nat) (htr : 1 ≤ tr) :
    ∀ (remaining i : Nat) (dfNew : List Row) (rs : List (Option ℚ))
      (rb : List (List (Nat × Option ℚ))) (ctr : Nat) (out : RunResult)
      (j : Nat),
      iterLoop df targets rng (PyNum.int tr) remaining i dfNew rs rb ctr =
        Except.ok out →
      out.stallIter = some j → out.lastAccepted = false →
      i ≤ j ∧ out.resStd.length = rs.length + (j - i) ∧
        out.dfNew.length = dfNew.length + (j - i) := by
  intro remaining
  induction remaining with
  | zero =>
    intro i dfNew rs rb ctr out j h hj _
    rw [iterLoop] at h
    cases h
    simp at hj
  | succ n ih =>
    intro i dfNew rs rb ctr out j h hj hla
    rw [iterLoop] at h
    by_cases hmiss : targets.any (fun t => !(df.cols.contains t)) = true
    · rw [if_pos hmiss] at h
      simp at h
    · rw [if_neg hmiss] at h
      simp only at h
      rcases tryLoop_spec df.rows df.cols targets rng
          (stdSq (sumVec df.cols dfNew targets)) tr tr dfNew ctr [] _ rfl
        with ⟨hacc, hdf, hlast⟩ | ⟨hacc, k, hdf, _, _⟩
      · have hbr : (tryLoop df.rows df.cols targets rng
            (stdSq (sumVec df.cols dfNew targets)) tr tr dfNew ctr
            []).lastTry + 1 = tr := by
          rw [hlast]; omega
        rw [if_pos hbr] at h
        cases h
        simp only [RunResult.stallIter, Option.some.injEq] at hj
        subst hj
        refine ⟨Nat.le_refl _, ?_, ?_⟩
        · simp [hacc]
        · simp [hacc, hdf]
      · by_cases hbr : (tryLoop df.rows df.cols targets rng
            (stdSq (sumVec df.cols dfNew targets)) tr tr dfNew ctr
            []).lastTry + 1 = tr
        · rw [if_pos hbr] at h
          cases h
          simp only [RunResult.lastAccepted] at hla
          rw [hacc] at hla
          cases hla
        · rw [if_neg hbr] at h
          obtain ⟨h1, h2, h3⟩ := ih (i + 1) _ _ _ _ _ _ h hj hla
          rw [hacc] at h2
          simp only [if_true] at h2
          rw [hdf] at h3
          refine ⟨by omega, ?_, ?_⟩
          · rw [h2]; simp; omega
          · rw [h3]; simp; omega

/-- `res_bad` receives exactly one entry per iteration that completed without
triggering the line-93 break: on exit its length is the break iteration's
index (relative to the start) when the loop broke, and the full iteration
count otherwise.  In particular the break iteration's own rejected list is
never recorded. -/
theorem iterLoop_resBad (df : DF) (targets : List String) (rng : Nat → Nat)
    (tries : PyNum) :
    ∀ (remaining i : Nat) (dfNew : List Row) (rs : List (Option ℚ))
      (rb : List (List (Nat × Option ℚ))) (ctr : Nat) (out : RunResult),
      iterLoop df targets rng tries remaining i dfNew rs rb ctr =
        Except.ok out →
      (∀ j, out.stallIter = some j → i ≤ j) ∧
      out.resBad.length = rb.length +
        (match out.stallIter with | some j => j - i | none => remaining) := by
  intro remaining
  induction remaining with
  | zero =>
    intro i dfNew rs rb ctr out h
    rw [iterLoop] at h
    cases h
    exact ⟨fun j hj => by simp at hj, rfl⟩
  | succ n ih =>
    intro i dfNew rs rb ctr out h
    rw [iterLoop] at h
    by_cases hmiss : targets.any (fun t => !(df.cols.contains t)) = true
    · rw [if_pos hmiss] at h
      simp at h
    · rw [if_neg hmiss] at h
      cases tries with
      | float q => simp at h
      | int tr =>
        simp only at h
        by_cases hbr : (tryLoop df.rows df.cols targets rng
            (stdSq (sumVec df.cols dfNew targets)) tr tr dfNew ctr
            []).lastTry + 1 = tr
        · rw [if_pos hbr] at h
          cases h
          refine ⟨fun j hj => ?_, ?_⟩
          · simp only [RunResult.stallIter, Option.some.injEq] at hj
            omega
          · simp
        · rw [if_neg hbr] at h
          obtain ⟨hmono, hlen⟩ := ih (i + 1) _ _ _ _ _ h
          refine ⟨fun j hj => Nat.le_of_succ_le (hmono j hj), ?_⟩
          cases hsi : out.stallIter with
          | some j =>
            have hij := hmono j hsi
            rw [hsi] at hlen
            simp only at hlen ⊢
            rw [hlen]
            simp
            omega
          | none =>
            rw [hsi] at hlen
            simp only at hlen ⊢
            rw [hlen]
            simp
            omega

/-- The accepted-score trace is strictly decreasing: each iteration's
`current_std` is recomputed from the working set, which after an acceptance
scores exactly the accepted value, and acceptance demands a strictly smaller
score. -/
theorem iterLoop_chain (df : DF) (targets : List String) (rng : Nat → Nat)
    (tries : PyNum) :
    ∀ (remaining i : Nat) (dfNew : List Row) (rs : List (Option ℚ))
      (rb : List (List (Nat × Option ℚ))) (ctr : Nat) (out : RunResult),
      iterLoop df targets rng tries remaining i dfNew rs rb ctr =
        Except.ok out →
      List.Chain' (fun a b => ltScore b a = true) rs →
      (rs = [] ∨ rs.getLast? = some (stdSq (sumVec df.cols dfNew targets))) →
      List.Chain' (fun a b => ltScore b a = true) out.resStd := by
  intro remaining
  induction remaining with
  | zero =>
    intro i dfNew rs rb ctr out h hchain _
    rw [iterLoop] at h
    cases h
    exact hchain
  | succ n ih =>
    intro i dfNew rs rb ctr out h hchain hlastinv
    rw [iterLoop] at h
    by_cases hmiss : targets.any (fun t => !(df.cols.contains t)) = true
    · rw [if_pos hmiss] at h
      simp at h
    · rw [if_neg hmiss] at h
      cases tries with
      | float q => simp at h
      | int tr =>
        simp only at h
        rcases tryLoop_spec df.rows df.cols targets rng
            (stdSq (sumVec df.cols dfNew targets)) tr tr dfNew ctr [] _ rfl
          with ⟨hacc, hdf, _⟩ | ⟨hacc, k, hdf, hsc, hlt⟩
        · by_cases hbr : (tryLoop df.rows df.cols targets rng
              (stdSq (sumVec df.cols dfNew targets)) tr tr dfNew ctr
              []).lastTry + 1 = tr
          · rw [if_pos hbr] at h
            cases h
            simpa [hacc] using hchain
          · rw [if_neg hbr] at h
            refine ih (i + 1) _ _ _ _ _ h (by simpa [hacc] using hchain) ?_
            rw [hacc, hdf]
            simpa using hlastinv
        · have hchain' : List.Chain'
              (fun a b => ltScore b a = true)
              (rs ++ [(tryLoop df.rows df.cols targets rng
                (stdSq (sumVec df.cols dfNew targets)) tr tr dfNew ctr
                []).newScore]) := by
            refine List.Chain'.append hchain (List.chain'_singleton _) ?_
            intro x hx y hy
            simp only [List.head?_cons, Option.mem_def, Option.some.injEq]
              at hy
            subst hy
            rcases hlastinv with hnil | hlast
            · subst hnil; simp at hx
            · rw [hlast] at hx
              simp only [Option.mem_def, Option.some.injEq] at hx
              subst hx
              exact hlt
          by_cases hbr : (tryLoop df.rows df.cols targets rng
              (stdSq (sumVec df.cols dfNew targets)) tr tr dfNew ctr
              []).lastTry + 1 = tr
          · rw [if_pos hbr] at h
            cases h
            simpa [hacc] using hchain'
          · rw [if_neg hbr] at h
            refine ih (i + 1) _ _ _ _ _ h (by simpa [hacc] using hchain') ?_
            rw [hacc]
            simp only [if_true]
            right
            rw [List.getLast?_concat, hsc]

/-- The working set is always the original rows followed by appended rows
each drawn from the original dataframe (with their original index labels). -/
theorem iterLoop_prefix (df : DF) (targets : List String) (rng : Nat → Nat)
    (tries : PyNum) (hne : df.rows ≠ []) :
    ∀ (remaining i : Nat) (dfNew : List Row) (rs : List (Option ℚ))
      (rb : List (List (Nat × Option ℚ))) (ctr : Nat) (out : RunResult),
      iterLoop df targets rng tries remaining i dfNew rs rb ctr =
        Except.ok out →
      (∃ ex, dfNew = df.rows ++ ex ∧ ∀ p ∈ ex, p ∈ df.rows) →
      ∃ ex, out.dfNew = df.rows ++ ex ∧ ∀ p ∈ ex, p ∈ df.rows := by
  intro remaining
  induction remaining with
  | zero =>
    intro i dfNew rs rb ctr out h hex
    rw [iterLoop] at h
    cases h
    exact hex
  | succ n ih =>
    intro i dfNew rs rb ctr out h hex
    rw [iterLoop] at h
    by_cases hmiss : targets.any (fun t => !(df.cols.contains t)) = true
    · rw [if_pos hmiss] at h
      simp at h
    · rw [if_neg hmiss] at h
      cases tries with
      | float q => simp at h
      | int tr =>
        simp only at h
        obtain ⟨ex, hdfex, hmem⟩ := hex
        have hstep : ∃ ex, (tryLoop df.rows df.cols targets rng
            (stdSq (sumVec df.cols dfNew targets)) tr tr dfNew ctr
            []).dfNew = df.rows ++ ex ∧ ∀ p ∈ ex, p ∈ df.rows := by
          rcases tryLoop_spec df.rows df.cols targets rng
              (stdSq (sumVec df.cols dfNew targets)) tr tr dfNew ctr [] _ rfl
            with ⟨_, hdf, _⟩ | ⟨_, k, hdf, _, _⟩
          · exact ⟨ex, by rw [hdf, hdfex], hmem⟩
          · refine ⟨ex ++ [pick df.rows k], ?_, ?_⟩
            · rw [hdf, hdfex, List.append_assoc]
            · intro p hp
              rcases List.mem_append.mp hp with hp | hp
              · exact hmem p hp
              · simp only [List.mem_singleton] at hp
                subst hp
                exact pick_mem hne k
        by_cases hbr : (tryLoop df.rows df.cols targets rng
            (stdSq (sumVec df.cols dfNew targets)) tr tr dfNew ctr
            []).lastTry + 1 = tr
        · rw [if_pos hbr] at h
          cases h
          exact hstep
        · rw [if_neg hbr] at h
          exact ih (i + 1) _ _ _ _ _ h hstep

/-- Unpacking a successful `fit` call into the underlying loop result. -/
theorem fit_ok_elim (a : Nat) (tries : PyNum) (plot : Bool) (df : DF)
    (targets : List String) (rng : Nat → Nat) (out : FitOutput)
    (h : fit (PyNum.int a) tries plot df targets rng = Except.ok out) :
    ∃ rr, iterLoop df targets rng tries a 0 df.rows [] [] 0 = Except.ok rr ∧
      out = ⟨rr.dfNew, rr.resStd, rr.resBad, rr.stallIter, rr.lastAccepted,
        if 0 < rr.resStd.length ∧ plot = true then FitRet.withPlot rr.dfNew
        else FitRet.single rr.dfNew⟩ := by
  simp only [fit] at h
  cases hh : iterLoop df targets rng tries a 0 df.rows [] [] 0 with
  | error e =>
    rw [hh] at h
    simp [Except.map] at h
  | ok rr =>
    rw [hh] at h
    simp only [Except.map, Except.ok.injEq] at h
    exact ⟨rr, rfl, h.symm⟩

/-- With a float `number_of_tries` attribute (the sentinel `1e6`), the first
iteration reaches `range(self.number_of_tries)` and raises `TypeError`,
provided the column lookup on line 74 did not raise first. -/
theorem iterLoop_floatTries (df : DF) (targets : List String)
    (rng : Nat → Nat) (q : ℚ)
    (hmiss : targets.any (fun t => !(df.cols.contains t)) = false)
    (n i : Nat) (dfNew : List Row) (rs : List (Option ℚ))
    (rb : List (List (Nat × Option ℚ))) (ctr : Nat) :
    iterLoop df targets rng (PyNum.float q) (n + 1) i dfNew rs rb ctr =
      Except.error PyErr.typeError := by
  rw [iterLoop, if_neg (by rw [hmiss]; exact Bool.false_ne_true)]

/-- When the current score is undefined (`NaN`), no candidate can be
accepted, so the very first iteration exhausts its tries and breaks with the
stall diagnostic, leaving every accumulator untouched. -/
theorem iterLoop_stall0 (df : DF) (targets : List String) (rng : Nat → Nat)
    (tr n i : Nat) (dfNew : List Row) (rs : List (Option ℚ))
    (rb : List (List (Nat × Option ℚ))) (ctr : Nat) (htr : 1 ≤ tr)
    (hmiss : targets.any (fun t => !(df.cols.contains t)) = false)
    (hcur : stdSq (sumVec df.cols dfNew targets) = none) :
    iterLoop df targets rng (PyNum.int tr) (n + 1) i dfNew rs rb ctr =
      Except.ok ⟨dfNew, rs, rb, some i, false⟩ := by
  rw [iterLoop, if_neg (by rw [hmiss]; exact Bool.false_ne_true)]
  simp only
  rcases tryLoop_spec df.rows df.cols targets rng
      (stdSq (sumVec df.cols dfNew targets)) tr tr dfNew ctr [] _ rfl
    with ⟨hacc, hdf, hlast⟩ | ⟨_, _, _, _, hlt⟩
  · have hbr : (tryLoop df.rows df.cols targets rng
        (stdSq (sumVec df.cols dfNew targets)) tr tr dfNew ctr
        []).lastTry + 1 = tr := by
      rw [hlast]; omega
    rw [if_pos hbr]
    simp [hacc, hdf]
  · rw [hcur, ltScore_none_right] at hlt
    cases hlt

/-- A `fit` call whose initial score is already undefined returns the
original rows with empty traces and the stall diagnostic at iteration 0. -/
theorem fit_stall0 (a tr : Nat) (plot : Bool) (df : DF)
    (targets : List String) (rng : Nat → Nat) (ha : 1 ≤ a) (htr : 1 ≤ tr)
    (hmiss : targets.any (fun t => !(df.cols.contains t)) = false)
    (hcur : stdSq (sumVec df.cols df.rows targets) = none) :
    fit (PyNum.int a) (PyNum.int tr) plot df targets rng =
      Except.ok ⟨df.rows, [], [], some 0, false, FitRet.single df.rows⟩ := by
  obtain ⟨r, rfl⟩ : ∃ r, a = r + 1 := ⟨a - 1, by omega⟩
  simp only [fit]
  rw [iterLoop_stall0 df targets rng tr r 0 df.rows [] [] 0 htr hmiss hcur]
  simp [Except.map]

/-- Concrete run on the unbalanced `dfU`: two accepted iterations, then a
genuine stall at iteration 2. -/
theorem run_dfU :
    fit (PyNum.int 5) (PyNum.int 2) true dfU ["y1", "y2"] (fun _ => 3) =
      Except.ok outU := by
  have h11 : (("y1" : String) == "y1") = true := rfl
  have h12 : (("y1" : String) == "y2") = false := rfl
  have h21 : (("y2" : String) == "y1") = false := rfl
  have h22 : (("y2" : String) == "y2") = true := rfl
  norm_num [fit, iterLoop, tryLoop, pick, sumVec, colSum, colVal, stdSq,
    ltScore, dfU, outU, Except.map, List.findIdx_cons, List.findIdx_nil,
    List.getD, List.getElem?_cons_zero, List.getElem?_cons_succ,
    Option.getD_some, List.contains_cons, h11, h12, h21, h22]

/-- Concrete run on the balanced `dfB`: the initial score is 0, every trial
is rejected, and the run stalls at iteration 0. -/
theorem run_dfB :
    fit (PyNum.int 3) (PyNum.int 2) true dfB ["y1", "y2"] (fun _ => 0) =
      Except.ok outB := by
  have h11 : (("y1" : String) == "y1") = true := rfl
  have h12 : (("y1" : String) == "y2") = false := rfl
  have h21 : (("y2" : String) == "y1") = false := rfl
  have h22 : (("y2" : String) == "y2") = true := rfl
  norm_num [fit, iterLoop, tryLoop, pick, sumVec, colSum, colVal, stdSq,
    ltScore, dfB, outB, Except.map, List.findIdx_cons, List.findIdx_nil,
    List.getD, List.getElem?_cons_zero, List.getElem?_cons_succ,
    Option.getD_some, List.contains_cons, h11, h12, h21, h22]

/-! ## Claims -/

/-- Claim C1: the claim says an iteration whose candidate is accepted on the
last try (`t = max_tries - 1`) advances to iteration `i+1` and only a try
loop that reaches `max_tries` *without any acceptance* terminates the run.
The code violates this: with `number_of_tries = 1` and `number_of_adds = 2`,
the only try of iteration 0 is accepted (one row appended, one score
recorded, `lastAccepted = true`), yet the line-91 check `(try_+1) ==
number_of_tries` fires (`stallIter = some 0`), the "No improvement"
diagnostic is printed even though an improvement was just accepted, and the
run stops without reaching iteration 1.  This theorem evaluates the embedded
code at that failing input. -/
theorem C1_last_try_acceptance_still_stops :
    fit (PyNum.int 2) (PyNum.int 1) false dfU ["y1", "y2"] (fun _ => 3) =
      Except.ok ⟨dfU.rows ++ [(3, [0, 1])], [some (1/2)], [], some 0, true,
        FitRet.single (dfU.rows ++ [(3, [0, 1])])⟩ := by
  have h11 : (("y1" : String) == "y1") = true := rfl
  have h12 : (("y1" : String) == "y2") = false := rfl
  have h21 : (("y2" : String) == "y1") = false := rfl
  have h22 : (("y2" : String) == "y2") = true := rfl
  norm_num [fit, iterLoop, tryLoop, pick, sumVec, colSum, colVal, stdSq,
    ltScore, dfU, Except.map, List.findIdx_cons, List.findIdx_nil,
    List.getD, List.getElem?_cons_zero, List.getElem?_cons_succ,
    Option.getD_some, List.contains_cons, h11, h12, h21, h22]

/-- Claim C2, counterexample: the claim says that with `max_iterations = 0`
the run proceeds without error and returns the original dataset unchanged.
In the code the falsy bound is replaced by the *float* `1e6`, and
`range(1e6)` raises `TypeError`, so `fit` fails instead of returning
anything. -/
theorem C2_counterexample :
    fit (mkBound 0) (PyNum.int 100) true dfU ["y1", "y2"] (fun _ => 0) =
      Except.error PyErr.typeError := rfl

/-- Claim C2, amended: a falsy `number_of_adds`/`number_of_tries` is replaced
by the float sentinel `1e6` in `__init__`; since Python's `range` rejects a
float bound, `fit` then raises `TypeError` — immediately when
`number_of_adds` is the sentinel, and at the first iteration's try loop when
`number_of_tries` is the sentinel (provided the column check on line 74 does
not raise first).  No dataset is returned and no trial is performed. -/
theorem C2_amended :
    mkBound 0 = PyNum.float 1000000 ∧
    (∀ (tries : PyNum) (plot : Bool) (df : DF) (targets : List String)
      (rng : Nat → Nat),
      fit (mkBound 0) tries plot df targets rng =
        Except.error PyErr.typeError) ∧
    (∀ (a : Nat) (plot : Bool) (df : DF) (targets : List String)
      (rng : Nat → Nat), 1 ≤ a →
      targets.any (fun t => !(df.cols.contains t)) = false →
      fit (PyNum.int a) (mkBound 0) plot df targets rng =
        Except.error PyErr.typeError) := by
  refine ⟨rfl, fun tries plot df targets rng => rfl, ?_⟩
  intro a plot df targets rng ha hmiss
  obtain ⟨r, rfl⟩ : ∃ r, a = r + 1 := ⟨a - 1, by omega⟩
  simp only [fit]
  rw [show mkBound 0 = PyNum.float 1000000 from rfl]
  rw [iterLoop_floatTries df targets rng 1000000 hmiss r 0 df.rows [] [] 0]
  rfl

/-- Claim C2, witness for the amended claim's hypotheses: a concrete call
with a falsy `number_of_tries` and all targets present fails with
`TypeError`. -/
theorem C2_witness :
    fit (PyNum.int 2) (mkBound 0) true dfU ["y1", "y2"] (fun _ => 0) =
      Except.error PyErr.typeError :=
  C2_amended.2.2 2 true dfU ["y1", "y2"] (fun _ => 0) (by omega) rfl

/-- Claim C3: if the run breaks out at iteration `i` and that iteration did
not accept its candidate (a genuine stall: the try budget was exhausted with
every candidate rejected), the entire run terminates with exactly `i`
accepted iterations — `res_std` has `i` entries and the working set holds
exactly `i` appended rows — regardless of how many iterations remained. -/
theorem C3_stall_stops_run (a tr : Nat) (plot : Bool) (df : DF)
    (targets : List String) (rng : Nat → Nat) (out : FitOutput) (i : Nat)
    (htr : 1 ≤ tr)
    (h : fit (PyNum.int a) (PyNum.int tr) plot df targets rng =
      Except.ok out)
    (hst : out.stallIter = some i) (hna : out.lastAccepted = false) :
    out.resStd.length = i ∧ out.dfNew.length = df.rows.length + i := by
  obtain ⟨rr, hrr, hout⟩ := fit_ok_elim a (PyNum.int tr) plot df targets rng
    out h
  subst hout
  simp only at hst hna ⊢
  obtain ⟨h0, h1, h2⟩ := iterLoop_stall df targets rng tr htr a 0 df.rows
    [] [] 0 rr i hrr hst hna
  constructor
  · simpa using h1
  · simpa using h2

/-- Claim C3, witness: the balanced dataframe stalls genuinely at iteration
0, so the run ends with zero accepted iterations and no appended rows. -/
theorem C3_witness :
    outB.resStd.length = 0 ∧ outB.dfNew.length = dfB.rows.length + 0 :=
  C3_stall_stops_run 3 2 true dfB ["y1", "y2"] (fun _ => 0) outB 0
    (by omega) run_dfB rfl rfl

/-- Claim C4, counterexample: the claim says an empty `target_list` fails
with a SchemaError before any iteration.  In the code `df_new[[]]` is legal
pandas — the score is NaN, every trial is rejected, and the run returns the
original rows after stalling at iteration 0; no error is raised. -/
theorem C4_counterexample :
    fit (PyNum.int 2) (PyNum.int 2) true dfB [] (fun _ => 0) =
      Except.ok ⟨dfB.rows, [], [], some 0, false,
        FitRet.single dfB.rows⟩ :=
  fit_stall0 2 2 true dfB [] (fun _ => 0) (by omega) (by omega) rfl
    (stdSq_short (by simp [sumVec]))

/-- Claim C4, amended: when some name of `target_list` is absent from the
columns, `fit` fails with a `KeyError` at the start of iteration 0 — before
any row is sampled — as the claim says; but an *empty* `target_list` does
not fail: it makes the score undefined, every trial is rejected, the run
stalls at iteration 0 and the original rows are returned. -/
theorem C4_amended (a tr : Nat) (plot : Bool) (df : DF)
    (targets : List String) (rng : Nat → Nat) (ha : 1 ≤ a) (htr : 1 ≤ tr) :
    (targets.any (fun t => !(df.cols.contains t)) = true →
      fit (PyNum.int a) (PyNum.int tr) plot df targets rng =
        Except.error PyErr.keyError) ∧
    (targets = [] →
      fit (PyNum.int a) (PyNum.int tr) plot df targets rng =
        Except.ok ⟨df.rows, [], [], some 0, false,
          FitRet.single df.rows⟩) := by
  constructor
  · intro hmiss
    obtain ⟨r, rfl⟩ : ∃ r, a = r + 1 := ⟨a - 1, by omega⟩
    simp only [fit]
    rw [iterLoop, if_pos hmiss]
    rfl
  · intro ht
    subst ht
    exact fit_stall0 a tr plot df [] rng ha htr rfl
      (stdSq_short (by simp [sumVec]))

/-- Claim C4, witness: a concrete call whose `target_list` names a column
absent from the dataframe fails with `KeyError` before any sampling. -/
theorem C4_witness :
    fit (PyNum.int 2) (PyNum.int 2) true dfB ["zz"] (fun _ => 0) =
      Except.error PyErr.keyError :=
  (C4_amended 2 2 true dfB ["zz"] (fun _ => 0) (by omega) (by omega)).1 rfl

/-- Claim C5: a candidate is accepted only when its score is strictly below
the iteration's current score (`ltScore` is irreflexive, so a tie never
accepts), and since each iteration recomputes `current_std` from the working
set — whose score after an acceptance is exactly the accepted value — the
accepted-score trace `res_std` is strictly decreasing. -/
theorem C5_trace_strictly_decreasing (adds tries : PyNum) (plot : Bool)
    (df : DF) (targets : List String) (rng : Nat → Nat) (out : FitOutput)
    (h : fit adds tries plot df targets rng = Except.ok out) :
    StrictDescent out.resStd ∧ ∀ q : Option ℚ, ltScore q q = false := by
  cases adds with
  | float q => simp [fit] at h
  | int a =>
    obtain ⟨rr, hrr, hout⟩ := fit_ok_elim a tries plot df targets rng out h
    subst hout
    refine ⟨?_, ltScore_irrefl⟩
    simpa [StrictDescent] using
      iterLoop_chain df targets rng tries a 0 df.rows [] [] 0 rr hrr
        List.chain'_nil (Or.inl rfl)

/-- Claim C5, witness: the two accepted scores of the concrete `dfU` run,
`[1/2, 0]`, form a strictly decreasing trace. -/
theorem C5_witness :
    StrictDescent outU.resStd ∧ ∀ q : Option ℚ, ltScore q q = false :=
  C5_trace_strictly_decreasing (PyNum.int 5) (PyNum.int 2) true dfU
    ["y1", "y2"] (fun _ => 3) outU run_dfU

/-- Claim C6: at the end of `fit` the working set's size equals the original
row count plus the number of accepted iterations (the length of `res_std`),
and the accepted count never exceeds `max_iterations`. -/
theorem C6_size_invariant (a : Nat) (tries : PyNum) (plot : Bool) (df : DF)
    (targets : List String) (rng : Nat → Nat) (out : FitOutput)
    (h : fit (PyNum.int a) tries plot df targets rng = Except.ok out) :
    out.dfNew.length = df.rows.length + out.resStd.length ∧
      out.resStd.length ≤ a := by
  obtain ⟨rr, hrr, hout⟩ := fit_ok_elim a tries plot df targets rng out h
  obtain ⟨k, hk, h1, h2⟩ := iterLoop_len df targets rng tries a 0 df.rows
    [] [] 0 rr hrr
  have h1' : rr.resStd.length = k := by simpa using h1
  have h2' : rr.dfNew.length = df.rows.length + k := by simpa using h2
  subst hout
  refine ⟨?_, ?_⟩
  · show rr.dfNew.length = df.rows.length + rr.resStd.length
    omega
  · show rr.resStd.length ≤ a
    omega

/-- Claim C6, witness: the concrete `dfU` run accepted 2 rows, and
`6 = 4 + 2` with `2 ≤ 5`. -/
theorem C6_witness :
    outU.dfNew.length = dfU.rows.length + outU.resStd.length ∧
      outU.resStd.length ≤ 5 :=
  C6_size_invariant 5 (PyNum.int 2) true dfU ["y1", "y2"] (fun _ => 3) outU
    run_dfU

/-- Claim C7, counterexample: the claim says the rejected-trial history has
one entry per iteration that ran, *including* the final stalled iteration's
list.  In the code `res_bad.append(not_working)` sits after the line-91
break, so the stalled iteration's list is dropped: this stalled run executed
iteration 0 with two rejected trials, yet `res_bad` is empty. -/
theorem C7_counterexample :
    fit (PyNum.int 4) (PyNum.int 2) true dfB ["y1", "y2"] (fun _ => 1) =
      Except.ok ⟨dfB.rows, [], [], some 0, false,
        FitRet.single dfB.rows⟩ := by
  have h11 : (("y1" : String) == "y1") = true := rfl
  have h12 : (("y1" : String) == "y2") = false := rfl
  have h21 : (("y2" : String) == "y1") = false := rfl
  have h22 : (("y2" : String) == "y2") = true := rfl
  norm_num [fit, iterLoop, tryLoop, pick, sumVec, colSum, colVal, stdSq,
    ltScore, dfB, Except.map, List.findIdx_cons, List.findIdx_nil,
    List.getD, List.getElem?_cons_zero, List.getElem?_cons_succ,
    Option.getD_some, List.contains_cons, h11, h12, h21, h22]

/-- Claim C7, amended: `res_bad` receives, in iteration order, one entry per
iteration that completed *without* triggering the line-91 break; the
iteration at which the run breaks — a genuinely stalled iteration, or one
accepted exactly at the last try — has its rejected list dropped.  Hence on
exit `res_bad` has `j` entries when the break fired at iteration `j`, and
`max_iterations` entries when all iterations completed. -/
theorem C7_amended_resBad (a : Nat) (tries : PyNum) (plot : Bool) (df : DF)
    (targets : List String) (rng : Nat → Nat) (out : FitOutput)
    (h : fit (PyNum.int a) tries plot df targets rng = Except.ok out) :
    out.resBad.length =
      (match out.stallIter with | some j => j | none => a) := by
  obtain ⟨rr, hrr, hout⟩ := fit_ok_elim a tries plot df targets rng out h
  obtain ⟨_, hlen⟩ := iterLoop_resBad df targets rng tries a 0 df.rows
    [] [] 0 rr hrr
  subst hout
  simp only at hlen ⊢
  cases hsi : rr.stallIter with
  | some j => rw [hsi] at hlen; simpa using hlen
  | none => rw [hsi] at hlen; simpa using hlen

/-- Claim C7, witness: the concrete `dfU` run broke at iteration 2, and
`res_bad` indeed has exactly 2 entries (those of iterations 0 and 1; the
stalled iteration 2 contributed none). -/
theorem C7_witness :
    outU.resBad.length =
      (match outU.stallIter with | some j => j | none => 5) :=
  C7_amended_resBad 5 (PyNum.int 2) true dfU ["y1", "y2"] (fun _ => 3) outU
    run_dfU

/-- Claim C8, counterexample: the claim says `fit` always returns the pair
`(augmented_dataset, run_trace)`.  On this valid input (balanced data, plot
flag on) the run stalls at iteration 0 with `res_std` empty, so the code's
line-106 `return df_new` returns the bare dataframe — no pair, and no trace
object is ever part of the return value. -/
theorem C8_counterexample :
    fit (PyNum.int 3) (PyNum.int 2) true dfB ["y1", "y2"] (fun _ => 0) =
      Except.ok outB ∧
    ∀ d, outB.ret ≠ FitRet.withPlot d := by
  refine ⟨run_dfB, ?_⟩
  intro d h
  simp [outB] at h

/-- Claim C8, amended: `fit` returns the pair `df_new, plot_at` only when at
least one score was accepted *and* the plot flag is set (lines 101–105), the
second component being a plot handle rather than a trace; otherwise it
returns the bare dataframe (line 106).  The run trace (`res_std`, `res_bad`)
lives in attributes on the oversampler object, not in the return value. -/
theorem C8_return_shape (adds tries : PyNum) (plot : Bool) (df : DF)
    (targets : List String) (rng : Nat → Nat) (out : FitOutput)
    (h : fit adds tries plot df targets rng = Except.ok out) :
    (out.resStd = [] → out.ret = FitRet.single out.dfNew) ∧
    (plot = false → out.ret = FitRet.single out.dfNew) ∧
    (0 < out.resStd.length → plot = true →
      out.ret = FitRet.withPlot out.dfNew) := by
  cases adds with
  | float q => simp [fit] at h
  | int a =>
    obtain ⟨rr, hrr, hout⟩ := fit_ok_elim a tries plot df targets rng out h
    subst hout
    refine ⟨?_, ?_, ?_⟩
    · intro hrs
      have hrs' : rr.resStd = [] := hrs
      show (if 0 < rr.resStd.length ∧ plot = true then
        FitRet.withPlot rr.dfNew else FitRet.single rr.dfNew) =
        FitRet.single rr.dfNew
      rw [if_neg]
      simp [hrs']
    · intro hp
      show (if 0 < rr.resStd.length ∧ plot = true then
        FitRet.withPlot rr.dfNew else FitRet.single rr.dfNew) =
        FitRet.single rr.dfNew
      rw [if_neg]
      simp [hp]
    · intro hlen hp
      have hlen' : 0 < rr.resStd.length := hlen
      show (if 0 < rr.resStd.length ∧ plot = true then
        FitRet.withPlot rr.dfNew else FitRet.single rr.dfNew) =
        FitRet.withPlot rr.dfNew
      rw [if_pos ⟨hlen', hp⟩]

/-- Claim C8, witness: on the concrete `dfU` run (two accepted scores, plot
flag on) the returned value is the `df_new, plot_at` pair form. -/
theorem C8_witness :
    (outU.resStd = [] → outU.ret = FitRet.single outU.dfNew) ∧
    (true = false → outU.ret = FitRet.single outU.dfNew) ∧
    (0 < outU.resStd.length → true = true →
      outU.ret = FitRet.withPlot outU.dfNew) :=
  C8_return_shape (PyNum.int 5) (PyNum.int 2) true dfU ["y1", "y2"]
    (fun _ => 3) outU run_dfU

/-- Claim C9: with fewer than two label columns the score is the NaN
sentinel (`none`), which compares neither less-than nor greater-than
anything, so every trial is rejected and the run stalls at iteration 0,
returning the original rows with empty traces. -/
theorem C9_undefined_metric_stalls (a tr : Nat) (plot : Bool) (df : DF)
    (targets : List String) (rng : Nat → Nat) (ha : 1 ≤ a) (htr : 1 ≤ tr)
    (hk : targets.length < 2)
    (hp : targets.all (fun t => df.cols.contains t) = true) :
    fit (PyNum.int a) (PyNum.int tr) plot df targets rng =
      Except.ok ⟨df.rows, [], [], some 0, false,
        FitRet.single df.rows⟩ := by
  refine fit_stall0 a tr plot df targets rng ha htr ?_ ?_
  · cases hh : targets.any (fun t => !(df.cols.contains t)) with
    | false => rfl
    | true =>
      obtain ⟨t, ht, hft⟩ := List.any_eq_true.mp hh
      have := List.all_eq_true.mp hp t ht
      rw [this] at hft
      cases hft
  · exact stdSq_short (by simpa [sumVec] using hk)

/-- Claim C9, witness: with the single label column `y1` the run stalls at
iteration 0 and returns the original two rows unchanged. -/
theorem C9_witness :
    fit (PyNum.int 3) (PyNum.int 2) true df1 ["y1"] (fun _ => 0) =
      Except.ok ⟨df1.rows, [], [], some 0, false,
        FitRet.single df1.rows⟩ :=
  C9_undefined_metric_stalls 3 2 true df1 ["y1"] (fun _ => 0) (by omega)
    (by omega) (by simp) rfl

/-- Claim C10: `fit` never mutates its input (the embedding is pure, and the
code deep-copies `df` before growing `df_new`): the returned working set is
the original rows, in order, followed by appended rows each of which is a
row of the original dataframe carried with its original index label. -/
theorem C10_prefix_and_membership (adds tries : PyNum) (plot : Bool)
    (df : DF) (targets : List String) (rng : Nat → Nat) (out : FitOutput)
    (hne : df.rows ≠ [])
    (h : fit adds tries plot df targets rng = Except.ok out) :
    ∃ ex, out.dfNew = df.rows ++ ex ∧ ∀ p ∈ ex, p ∈ df.rows := by
  cases adds with
  | float q => simp [fit] at h
  | int a =>
    obtain ⟨rr, hrr, hout⟩ := fit_ok_elim a tries plot df targets rng out h
    subst hout
    simpa using iterLoop_prefix df targets rng tries hne a 0 df.rows [] []
      0 rr hrr ⟨[], by simp, by simp⟩

/-- Claim C10, witness: the concrete `dfU` run returns the original four
rows followed by two appended copies of row 3 of the original dataframe. -/
theorem C10_witness :
    ∃ ex, outU.dfNew = dfU.rows ++ ex ∧ ∀ p ∈ ex, p ∈ dfU.rows :=
  C10_prefix_and_membership (PyNum.int 5) (PyNum.int 2) true dfU
    ["y1", "y2"] (fun _ => 3) outU (by simp [dfU]) run_dfU

end MLO
